import Mathlib

/-!
Verification development for `learnEnglish.py`: a CSV → Gemini → Anki pipeline.

The script is shallowly embedded below.  External collaborators (the
`json` standard library, the Gemini SDK client, the HTTP transport to
AnkiConnect, the CSV reader) are modelled as explicit functional
parameters (`loads`, `resp`, `noteEx`, `gen`, `add`, `call`), exactly at
the call boundaries where the Python code invokes them.  Everything the
script itself computes — the JSON extraction scanner and its regex
fallback, key normalization, the retry/backoff loop, the per-row pipeline
control flow, and the AnkiConnect response handling of `note_exists` —
is translated function by function from the source.

Python `time.sleep` calls are made observable: the generation retry loop
records its backoff sleeps in a list, and the pipeline driver records a
`sleep` event in its event trace.  Machine floats (`backoff`, the 1.0s
pause) are modelled as rationals; the JSON `num` payload is modelled with
integers (no claim depends on float formatting).
-/

namespace LearnEnglish

/-- The `Char` for a left curly brace. -/
def lbrace : Char := Char.ofNat 123

/-- The `Char` for a right curly brace. -/
def rbrace : Char := Char.ofNat 125

/-- Model of a Python value decoded from JSON (`json.loads` result).
Numbers are modelled as integers. -/
inductive JsonValue : Type where
  | null : JsonValue
  | bool (b : Bool) : JsonValue
  | num (n : Int) : JsonValue
  | str (s : String) : JsonValue
  | arr (items : List JsonValue) : JsonValue
  | obj (fields : List (String × JsonValue)) : JsonValue

/-- Characters Python's `str.strip()` removes: space, tab, newline,
carriage return, vertical tab, form feed. -/
def isPyWS (c : Char) : Bool :=
  c == ' ' || c == '\t' || c == '\n' || c == '\r' ||
    c == Char.ofNat 11 || c == Char.ofNat 12

/-- `str.strip()` on a character list: drop whitespace from both ends. -/
def pyStripList (l : List Char) : List Char :=
  ((l.dropWhile isPyWS).reverse.dropWhile isPyWS).reverse

/-- Model of Python `str.strip()`. -/
def pyStrip (s : String) : String :=
  String.mk (pyStripList s.toList)

/-- Model of Python dict lookup on an association list (JSON objects have
unique keys, so first-match lookup agrees with dict semantics). -/
def lookupKV {α : Type} : List (String × α) → String → Option α
  | [], _ => none
  | (k, v) :: rest, key => if k = key then some v else lookupKV rest key

/-- `isinstance(v, str)` check. -/
def isStr : JsonValue → Bool
  | .str _ => true
  | _ => false

/-- Whether a decoded JSON value is an object (a Python `dict`). -/
def isObj : JsonValue → Bool
  | .obj _ => true
  | _ => false

/-- Python `len(v)` on a decoded JSON value: defined for strings, lists
and dicts; `none` models the `TypeError` raised on other values. -/
def pyLen : JsonValue → Option Nat
  | .str s => some s.length
  | .arr items => some items.length
  | .obj kvs => some kvs.length
  | _ => none

/-- Escaping of one character as done by `json.dumps`
(quote, backslash and the common control characters). -/
def escapeChar (c : Char) : String :=
  if c = '"' then "\\\""
  else if c = '\\' then "\\\\"
  else if c = '\n' then "\\n"
  else if c = '\t' then "\\t"
  else if c = '\r' then "\\r"
  else String.mk [c]

/-- `json.dumps` escaping of a string body. -/
def escapeString (s : String) : String :=
  String.join (s.toList.map escapeChar)

/-- A JSON string literal as produced by `json.dumps`. -/
def quoteJson (s : String) : String :=
  "\"" ++ escapeString s ++ "\""

mutual

/-- Model of `json.dumps(v, ensure_ascii=False)` with the default
separators `", "` and `": "`. -/
def dumps : JsonValue → String
  | .null => "null"
  | .bool true => "true"
  | .bool false => "false"
  | .num n => toString n
  | .str s => quoteJson s
  | .arr items => "[" ++ String.intercalate ", " (dumpsArr items) ++ "]"
  | .obj kvs => "\x7b" ++ String.intercalate ", " (dumpsObj kvs) ++ "\x7d"

/-- Serialization of the items of a JSON array. -/
def dumpsArr : List JsonValue → List String
  | [] => []
  | v :: vs => dumps v :: dumpsArr vs

/-- Serialization of the entries of a JSON object. -/
def dumpsObj : List (String × JsonValue) → List String
  | [] => []
  | kv :: kvs => (quoteJson kv.1 ++ ": " ++ dumps kv.2) :: dumpsObj kvs

end

/-- The depth update on a closing brace (source lines 76–77):
`if depth > 0: depth -= 1`. -/
def stepDepth (depth : Nat) : Nat :=
  if 0 < depth then depth - 1 else depth

/-- The balanced-brace scanner of `find_json_in_text` (source lines
67–86), translated statement by statement.  `full` is the whole (already
stripped) text, the fourth argument is the unscanned suffix, `i` the
current index, `start`/`depth` the scanner state.  `loads` models
`json.loads` returning `none` where Python raises. -/
def scanGo (loads : String → Option JsonValue) (full : List Char) :
    List Char → Nat → Option Nat → Nat → Option JsonValue
  | [], _, _, _ => none
  | ch :: rest, i, start, depth =>
    if ch = lbrace then
      scanGo loads full rest (i + 1) (some (start.getD i)) (depth + 1)
    else if ch = rbrace then
      match start with
      | some s =>
        if stepDepth depth = 0 then
          match loads (String.mk ((full.drop s).take (i + 1 - s))) with
          | some v => some v
          | none => scanGo loads full rest (i + 1) none 0
        else
          scanGo loads full rest (i + 1) (some s) (stepDepth depth)
      | none => scanGo loads full rest (i + 1) none (stepDepth depth)
    else
      scanGo loads full rest (i + 1) start depth

/-- The candidate substrings the scanner would submit to `json.loads`,
in order, assuming every parse attempt fails (each failure resets the
`start`/`depth` state, which is exactly what the source does).  Same
state threading as `scanGo`. -/
def candGo (full : List Char) :
    List Char → Nat → Option Nat → Nat → List (List Char)
  | [], _, _, _ => []
  | ch :: rest, i, start, depth =>
    if ch = lbrace then
      candGo full rest (i + 1) (some (start.getD i)) (depth + 1)
    else if ch = rbrace then
      match start with
      | some s =>
        if stepDepth depth = 0 then
          ((full.drop s).take (i + 1 - s)) :: candGo full rest (i + 1) none 0
        else
          candGo full rest (i + 1) (some s) (stepDepth depth)
      | none => candGo full rest (i + 1) none (stepDepth depth)
    else
      candGo full rest (i + 1) start depth

/-- Character class `[^{}]` of the fallback regex. -/
def isBraceFree (c : Char) : Bool :=
  !(c == lbrace) && !(c == rbrace)

/-- Left-to-right, non-overlapping matches of the fallback pattern
(`lbrace`, one or more non-brace characters, `rbrace`), as Python's
`re.findall` produces them.  After a failed start the engine's next
possible match begins at the next brace, which the recursion jumps to.
The fuel argument is initialized to the list length, which bounds the
recursion since every step consumes at least one character. -/
def findNN : Nat → List Char → List (List Char)
  | 0, _ => []
  | _ + 1, [] => []
  | fuel + 1, ch :: rest =>
    if ch = lbrace then
      let run := rest.takeWhile isBraceFree
      match rest.dropWhile isBraceFree with
      | [] => []
      | c2 :: rest2 =>
        if c2 = rbrace then
          if run.isEmpty then findNN fuel rest
          else (lbrace :: (run ++ [rbrace])) :: findNN fuel rest2
        else
          findNN fuel (c2 :: rest2)
    else findNN fuel rest

/-- Model of `re.findall(r"..{..}..", text, flags=re.DOTALL)` for the
non-nested brace pattern of source line 89. -/
def findNonNested (l : List Char) : List (List Char) :=
  findNN l.length l

/-- The fixed prefix of the `ValueError` message of source line 96. -/
def jsonErrorHeader : String :=
  "Could not find a valid JSON object in model response.\nFull response:\n"

/-- `find_json_in_text` (source lines 58–96): strip, direct parse,
balanced scanner, regex fallback, error.  `.error` carries the
`ValueError` message. -/
def find_json_in_text (loads : String → Option JsonValue) (text0 : String) :
    Except String JsonValue :=
  let text := pyStrip text0
  match loads text with
  | some v => .ok v
  | none =>
    match scanGo loads text.toList text.toList 0 none 0 with
    | some v => .ok v
    | none =>
      match (findNonNested text.toList).findSome? (fun m => loads (String.mk m)) with
      | some v => .ok v
      | none => .error (jsonErrorHeader ++ text)

/-- The five result keys of `query_gemini_for_word` (source line 127). -/
def geminiKeys : List String :=
  ["meaning", "translation", "meaning_translation", "example_phrase",
    "phrase_translation"]

/-- Normalization of one field value (source lines 129–132): strings are
stripped, any other value is serialized with `json.dumps`. -/
def normalizeValue : JsonValue → String
  | .str s => pyStrip s
  | v => dumps v

/-- The result dict built by the loop of source lines 126–132:
`v = parsed.get(k, "")`, then strip strings and dump non-strings. -/
def normalizeRecord (parsed : List (String × JsonValue)) :
    List (String × String) :=
  geminiKeys.map fun k => (k, normalizeValue ((lookupKV parsed k).getD (.str "")))

/-- One iteration of the `try` block of `query_gemini_for_word` (source
lines 119–133).  `respText` is the outcome of
`client.models.generate_content(...).text` (an exception message on
failure), modelled as an oracle because the SDK client is external.  A
parsed value that is not a dict makes `parsed.get` raise, which the
enclosing `except` catches, so it is an attempt failure. -/
def geminiAttempt (loads : String → Option JsonValue)
    (respText : Except String String) : Except String (List (String × String)) :=
  match respText with
  | .error e => .error e
  | .ok raw =>
    match find_json_in_text loads raw with
    | .error e => .error e
    | .ok (.obj kvs) => .ok (normalizeRecord kvs)
    | .ok _ => .error "AttributeError: parsed value has no attribute get"

/-- Observable outcome of one call to `query_gemini_for_word`: final
result (`.error` models the `RuntimeError` wrapping `last_exc`), number
of attempts made, and the `time.sleep` durations in order. -/
structure GeminiRun (α : Type) : Type where
  result : Except (Option String) α
  attempts : Nat
  sleeps : List ℚ

/-- The `while attempt <= retries` loop of source lines 115–138.  The
fuel argument equals `retries + 1 - attempt`, so `0 < fuel` is exactly
the loop condition; `attempt` is the Python counter before the increment
at the top of the body.  Every failed attempt appends its backoff sleep
(`wait = backoff * attempt`, with `attempt` already incremented), and
exhaustion produces the final `RuntimeError` wrapping `last_exc`. -/
def geminiLoop {α : Type} (body : Nat → Except String α) (backoff : ℚ) :
    Nat → Nat → Option String → GeminiRun α
  | 0, _, last => ⟨.error last, 0, []⟩
  | fuel + 1, attempt, _last =>
    match body (attempt + 1) with
    | .ok v => ⟨.ok v, 1, []⟩
    | .error e =>
      ⟨(geminiLoop body backoff fuel (attempt + 1) (some e)).result,
       (geminiLoop body backoff fuel (attempt + 1) (some e)).attempts + 1,
       backoff * ((attempt : ℚ) + 1) ::
         (geminiLoop body backoff fuel (attempt + 1) (some e)).sleeps⟩

/-- `query_gemini_for_word` (source lines 99–141), with the SDK response
for each attempt number given by the oracle `resp`. -/
def query_gemini_for_word (loads : String → Option JsonValue)
    (resp : Nat → Except String String) (retries : Nat) (backoff : ℚ) :
    GeminiRun (List (String × String)) :=
  geminiLoop (fun n => geminiAttempt loads (resp n)) backoff (retries + 1) 0 none

/-- `note_exists` (source lines 221–240).  `call` is the combined outcome
of `requests.post`, `raise_for_status()` and `resp.json()`: `.error`
models any transport / HTTP-status / decode exception.  On a decoded
body the source reads `resp.json().get("result", [])` and returns
`len(note_ids) > 0`; a non-dict body makes `.get` raise and a
non-sizable `result` makes `len` raise, both caught by the `except`
clause, which logs and returns `False`.  The function is total — it
never propagates an exception. -/
def note_exists (call : Except String JsonValue) : Bool :=
  match call with
  | .error _ => false
  | .ok (.obj kvs) =>
    match pyLen ((lookupKV kvs "result").getD (.arr [])) with
    | some n => decide (0 < n)
    | none => false
  | .ok _ => false

/-- Externally visible actions of the pipeline driver, in program order:
the `findNotes` existence check, the Gemini query, the `addNote` call,
and the fixed `time.sleep` pause. -/
inductive Event : Type where
  | existsCheck (word : String) (found : Bool) : Event
  | genCall (word : String) : Event
  | addCall (word : String) (fields : List (String × String)) : Event
  | sleep (seconds : ℚ) : Event
deriving DecidableEq

/-- Terminal state of one CSV row in `process_csv_file`. -/
inductive Outcome : Type where
  | blank : Outcome
  | skipped : Outcome
  | preview : Outcome
  | added (id : Int) : Outcome
  | failed (msg : String) : Outcome
deriving DecidableEq

/-- `gemini.get(k, "")` on the generation result (source lines 183–187). -/
def lookupField (fields : List (String × String)) (k : String) : String :=
  (lookupKV fields k).getD ""

/-- The Anki field mapping of source lines 181–188 (the capitalization
inconsistency is the external note-type schema, preserved as-is). -/
def ankiFields (word : String) (g : List (String × String)) :
    List (String × String) :=
  [("Word", word),
   ("Meaning", lookupField g "meaning"),
   ("translation", lookupField g "translation"),
   ("Meaning Translation", lookupField g "meaning_translation"),
   ("example phrase", lookupField g "example_phrase"),
   ("phrase translation", lookupField g "phrase_translation")]

/-- One iteration of the row loop of `process_csv_file` (source lines
165–199).  `noteEx`, `gen` and `add` are the outcomes of the external
calls (`note_exists`, `query_gemini_for_word`, `add_anki_note`) for the
given word/fields; `gen` and `add` return `.error` where Python raises.
Returns the events the iteration emits and the row's terminal outcome.
Note that the duplicate-skip branch `continue`s before reaching the
`time.sleep(1.0)` at the end of the loop body. -/
def processRow (noteEx : String → Bool)
    (gen : String → Except String (List (String × String)))
    (add : String → List (String × String) → Except String Int)
    (dry_run : Bool) (row : List String) : List Event × Outcome :=
  match row with
  | [] => ([], .blank)
  | cell :: _ =>
    let word := pyStrip cell
    if word = "" then ([], .blank)
    else if noteEx word then ([.existsCheck word true], .skipped)
    else
      match gen word with
      | .error e =>
        ([.existsCheck word false, .genCall word, .sleep 1], .failed e)
      | .ok g =>
        let fields := ankiFields word g
        if dry_run then
          ([.existsCheck word false, .genCall word, .sleep 1], .preview)
        else
          match add word fields with
          | .ok id =>
            ([.existsCheck word false, .genCall word, .addCall word fields,
              .sleep 1], .added id)
          | .error e =>
            ([.existsCheck word false, .genCall word, .addCall word fields,
              .sleep 1], .failed e)

/-- `process_csv_file` over the list of CSV rows: concatenated event
trace and per-row outcomes, in file order. -/
def process_csv_file (noteEx : String → Bool)
    (gen : String → Except String (List (String × String)))
    (add : String → List (String × String) → Except String Int)
    (dry_run : Bool) : List (List String) → List Event × List Outcome
  | [] => ([], [])
  | row :: rows =>
    let r := processRow noteEx gen add dry_run row
    let rest := process_csv_file noteEx gen add dry_run rows
    (r.1 ++ rest.1, r.2 :: rest.2)

/-- Whether an event is an `addNote` insertion call. -/
def isAddCall : Event → Bool
  | .addCall _ _ => true
  | _ => false

/-- Whether an event is a read-side call (existence check or generation). -/
def isReadCall : Event → Bool
  | .existsCheck _ _ => true
  | .genCall _ => true
  | _ => false

/-- Walks the characters after an opening brace at scanner depth `d`:
`true` iff the depth stays positive until the final character, which is
the `rbrace` that first brings it back to zero. -/
def spanCheck : List Char → Nat → Bool
  | [], _ => false
  | c :: rest, depth =>
    if c = lbrace then spanCheck rest (depth + 1)
    else if c = rbrace then
      if depth = 1 then rest.isEmpty
      else spanCheck rest (depth - 1)
    else spanCheck rest depth

/-- A balanced brace span as the scanner delimits one: it starts with
`lbrace` and the depth first returns to zero exactly at its last
character. -/
def MinBalancedSpan (s : List Char) : Bool :=
  match s with
  | [] => false
  | c :: rest => if c = lbrace then spanCheck rest 1 else false

/-- A `json.loads` model for witnesses: parses exactly one object
literal with commentary-free text mapped to `none`, agreeing with the
real parser on every string the witness feeds it. -/
def loadsDemo (s : String) : Option JsonValue :=
  if s = "\x7b\"a\": 1\x7d" then some (.obj [("a", .num 1)]) else none

/-- A `json.loads` model for witnesses: parses exactly the bare number
literal `5`. -/
def loadsNum (s : String) : Option JsonValue :=
  if s = "5" then some (.num 5) else none

/-- A `json.loads` model that fails on every input (used where the
witness text contains nothing parseable, where it agrees with the real
parser). -/
def loadsNone (_ : String) : Option JsonValue := none

/-- Whether an `Except` result is a success. -/
def isOkE {ε α : Type} : Except ε α → Bool
  | .ok _ => true
  | .error _ => false

/-- A concrete parsed model response for witnesses: a string field that
needs stripping, a non-text field, and three fields missing. -/
def parsedDemo : List (String × JsonValue) :=
  [("meaning", .str " A hug. "), ("translation", .arr [.str "x", .num 2])]

/-! ### General lemmas about the embedded definitions -/

/-- Looking a key up in an association list built over a key list hits
the entry for that key. -/
theorem lookupKV_map_keys {α : Type} (f : String → α) (k : String) :
    ∀ keys : List String, k ∈ keys →
      lookupKV (keys.map fun k2 => (k2, f k2)) k = some (f k)
  | [], h => absurd h (List.not_mem_nil k)
  | k0 :: rest, h => by
    simp only [List.map_cons, lookupKV]
    by_cases hk : k0 = k
    · subst hk; simp
    · rw [if_neg hk]
      refine lookupKV_map_keys f k rest ?_
      rcases List.mem_cons.mp h with h0 | h0
      · exact absurd h0.symm hk
      · exact h0

/-- The keys of an association list built over a key list are that list. -/
theorem map_fst_map_keys {α : Type} (f : String → α) (keys : List String) :
    (keys.map fun k => (k, f k)).map Prod.fst = keys := by
  induction keys with
  | nil => rfl
  | cons k rest ih => simp [ih]

/-- `findSome?` yields nothing when the function fails on every element. -/
theorem findSome?_eq_none_of {α β : Type} (f : α → Option β) :
    ∀ l : List α, (∀ x ∈ l, f x = none) → l.findSome? f = none
  | [], _ => rfl
  | a :: l, h => by
    simp only [List.findSome?]
    rw [h a (List.mem_cons_self a l)]
    exact findSome?_eq_none_of f l fun x hx => h x (List.mem_cons_of_mem a hx)

/-- When every attempt fails, the retry loop makes one attempt per unit
of fuel, sleeps `backoff * n` after the `n`-th attempt, and ends with the
error of the last attempt. -/
theorem geminiLoop_all_fail {α : Type} (body : Nat → Except String α) (backoff : ℚ)
    (errs : Nat → String) (hfail : ∀ n, body n = .error (errs n)) :
    ∀ (fuel attempt : Nat) (last : Option String),
      (geminiLoop body backoff fuel attempt last).attempts = fuel ∧
      (geminiLoop body backoff fuel attempt last).sleeps =
        (List.range' (attempt + 1) fuel).map (fun n : Nat => backoff * (n : ℚ)) ∧
      (geminiLoop body backoff fuel attempt last).result =
        (if fuel = 0 then .error last else .error (some (errs (attempt + fuel))))
  | 0, attempt, last => by simp [geminiLoop]
  | fuel + 1, attempt, last => by
    obtain ⟨ih1, ih2, ih3⟩ :=
      geminiLoop_all_fail body backoff errs hfail fuel (attempt + 1)
        (some (errs (attempt + 1)))
    simp only [geminiLoop, hfail (attempt + 1)]
    refine ⟨by rw [ih1], ?_, ?_⟩
    · rw [show List.range' (attempt + 1) (fuel + 1) =
          (attempt + 1) :: List.range' (attempt + 1 + 1) fuel from rfl,
        List.map_cons, ih2]
      congr 1
      push_cast
      ring
    · rcases Nat.eq_zero_or_pos fuel with hf | hf
      · subst hf
        rw [if_pos rfl] at ih3
        rw [ih3, if_neg (by omega : ¬ 0 + 1 = 0)]
      · rw [if_neg (by omega : ¬ fuel = 0)] at ih3
        rw [ih3, if_neg (by omega : ¬ fuel + 1 = 0)]
        have : attempt + 1 + fuel = attempt + (fuel + 1) := by omega
        rw [this]

/-- The sleeps of any retry run are `backoff * n` for the consecutive
attempt numbers `n` starting at the first attempt. -/
theorem geminiLoop_sleeps {α : Type} (body : Nat → Except String α) (backoff : ℚ) :
    ∀ (fuel attempt : Nat) (last : Option String),
      (geminiLoop body backoff fuel attempt last).sleeps =
        (List.range' (attempt + 1)
          (geminiLoop body backoff fuel attempt last).sleeps.length).map
          (fun n : Nat => backoff * (n : ℚ))
  | 0, _, _ => by simp [geminiLoop]
  | fuel + 1, attempt, last => by
    cases hb : body (attempt + 1) with
    | ok v => simp [geminiLoop, hb]
    | error e =>
      have ih := geminiLoop_sleeps body backoff fuel (attempt + 1) (some e)
      simp only [geminiLoop, hb, List.length_cons]
      rw [show ∀ m : Nat, List.range' (attempt + 1) (m + 1) =
          (attempt + 1) :: List.range' (attempt + 1 + 1) m from fun m => rfl]
      simp only [List.map_cons]
      have hcast : ((attempt + 1 : Nat) : ℚ) = (attempt : ℚ) + 1 := by push_cast; ring
      rw [hcast, ← ih]

/-- One sleep happens per failed attempt: the sleep count plus one for a
final success equals the attempt count. -/
theorem geminiLoop_count {α : Type} (body : Nat → Except String α) (backoff : ℚ) :
    ∀ (fuel attempt : Nat) (last : Option String),
      (geminiLoop body backoff fuel attempt last).sleeps.length +
        (if isOkE (geminiLoop body backoff fuel attempt last).result then 1 else 0) =
        (geminiLoop body backoff fuel attempt last).attempts
  | 0, _, _ => by simp [geminiLoop, isOkE]
  | fuel + 1, attempt, last => by
    cases hb : body (attempt + 1) with
    | ok v => simp [geminiLoop, hb, isOkE]
    | error e =>
      have ih := geminiLoop_count body backoff fuel (attempt + 1) (some e)
      simp only [geminiLoop, hb, List.length_cons]
      rw [← ih]
      ring

/-- Multiples of a nonnegative rational over consecutive naturals are
non-decreasing. -/
theorem chain_le_mul_range' (backoff : ℚ) (hb : 0 ≤ backoff) :
    ∀ (n s : Nat),
      (((List.range' s n).map (fun k : Nat => backoff * (k : ℚ))).Chain' (· ≤ ·))
  | 0, _ => by simp
  | 1, _ => by simp
  | n + 2, s => by
    rw [show List.range' s (n + 2) = s :: (s + 1) :: List.range' (s + 1 + 1) n from rfl,
      List.map_cons, List.map_cons, List.chain'_cons]
    constructor
    · refine mul_le_mul_of_nonneg_left ?_ hb
      push_cast
      linarith
    · have h := chain_le_mul_range' backoff hb (n + 1) (s + 1)
      rw [show List.range' (s + 1) (n + 1) = (s + 1) :: List.range' (s + 1 + 1) n from rfl,
        List.map_cons] at h
      exact h

/-- A successful retry run got its value from a successful attempt. -/
theorem geminiLoop_ok_body {α : Type} (body : Nat → Except String α) (backoff : ℚ) :
    ∀ (fuel attempt : Nat) (last : Option String) (v : α),
      (geminiLoop body backoff fuel attempt last).result = .ok v →
      ∃ n, body n = .ok v
  | 0, _, _, v => by simp [geminiLoop]
  | fuel + 1, attempt, last, v => by
    cases hb : body (attempt + 1) with
    | ok w =>
      intro h
      simp only [geminiLoop, hb, Except.ok.injEq] at h
      exact ⟨attempt + 1, by rw [hb, h]⟩
    | error e =>
      intro h
      simp only [geminiLoop, hb] at h
      exact geminiLoop_ok_body body backoff fuel (attempt + 1) (some e) v h

/-! ### Claim theorems -/

/-- Claim C1: if every generation attempt fails (network error, malformed
output, or extractor failure), `query_gemini_for_word` raises the
`RuntimeError` (`GenerationError`) wrapping the last underlying failure
after exactly `retries + 1` attempts. -/
theorem c1_retry_exhaustion (loads : String → Option JsonValue)
    (resp : Nat → Except String String) (retries : Nat) (backoff : ℚ)
    (errs : Nat → String)
    (hfail : ∀ n, geminiAttempt loads (resp n) = .error (errs n)) :
    (query_gemini_for_word loads resp retries backoff).result =
      .error (some (errs (retries + 1))) ∧
    (query_gemini_for_word loads resp retries backoff).attempts = retries + 1 := by
  obtain ⟨h1, _h2, h3⟩ :=
    geminiLoop_all_fail (fun n => geminiAttempt loads (resp n)) backoff errs hfail
      (retries + 1) 0 none
  rw [if_neg (by omega : ¬ retries + 1 = 0)] at h3
  rw [Nat.zero_add] at h3
  exact ⟨h3, h1⟩

/-- Claim C1 witness: with a client that always raises a connection
error, the default configuration (`retries = 2`) stops after 3 attempts
with the error wrapping the last failure. -/
theorem c1_witness :
    (query_gemini_for_word loadsNone (fun _ => .error "ConnectionError") 2 1).result =
      .error (some "ConnectionError") ∧
    (query_gemini_for_word loadsNone (fun _ => .error "ConnectionError") 2 1).attempts = 3 :=
  c1_retry_exhaustion loadsNone (fun _ => .error "ConnectionError") 2 1
    (fun _ => "ConnectionError") (fun _ => rfl)

/-- Claim C3 counterexample: the claim says no sleep follows the final
attempt before the error is raised, but with `retries = 2` and
`backoff = 1` and every attempt failing, the loop makes 3 attempts and
performs 3 sleeps — `time.sleep` runs inside the `except` block after
every failed attempt, including the last one. -/
theorem c3_counterexample :
    (query_gemini_for_word loadsNone (fun _ => .error "ConnectionError") 2 1).sleeps =
      [1, 2, 3] ∧
    (query_gemini_for_word loadsNone (fun _ => .error "ConnectionError") 2 1).attempts = 3 := by
  constructor
  · simp [query_gemini_for_word, geminiLoop, geminiAttempt]
    norm_num
  · simp [query_gemini_for_word, geminiLoop, geminiAttempt]

/-- Claim C3 (amended): when attempt `n` fails, `query_gemini_for_word`
sleeps `backoff * n`; a sleep follows every failed attempt — including
the final one, just before the error is raised — and for nonnegative
backoff the sleep durations are non-decreasing across attempts. -/
theorem c3_backoff_sleeps (loads : String → Option JsonValue)
    (resp : Nat → Except String String) (retries : Nat) (backoff : ℚ) :
    (query_gemini_for_word loads resp retries backoff).sleeps =
      (List.range' 1 (query_gemini_for_word loads resp retries backoff).sleeps.length).map
        (fun n : Nat => backoff * (n : ℚ)) ∧
    (query_gemini_for_word loads resp retries backoff).sleeps.length +
      (if isOkE (query_gemini_for_word loads resp retries backoff).result then 1 else 0) =
      (query_gemini_for_word loads resp retries backoff).attempts ∧
    (0 ≤ backoff →
      (query_gemini_for_word loads resp retries backoff).sleeps.Chain' (· ≤ ·)) := by
  refine ⟨?_, ?_, ?_⟩
  · exact geminiLoop_sleeps (fun n => geminiAttempt loads (resp n)) backoff
      (retries + 1) 0 none
  · exact geminiLoop_count (fun n => geminiAttempt loads (resp n)) backoff
      (retries + 1) 0 none
  · intro hb
    have h := geminiLoop_sleeps (fun n => geminiAttempt loads (resp n)) backoff
      (retries + 1) 0 none
    rw [show query_gemini_for_word loads resp retries backoff =
      geminiLoop (fun n => geminiAttempt loads (resp n)) backoff (retries + 1) 0 none
      from rfl, h]
    exact chain_le_mul_range' backoff hb _ _

/-- Claim C3 witness: on a concrete failing run the recorded sleep
durations are non-decreasing. -/
theorem c3_witness :
    (query_gemini_for_word loadsNone (fun _ => .error "E") 2 1).sleeps.Chain' (· ≤ ·) :=
  (c3_backoff_sleeps loadsNone (fun _ => .error "E") 2 1).2.2 (by norm_num)

/-- Claim C5: every record produced by the normalization loop has
exactly the five keys, a key missing from the parsed JSON maps to the
empty string, string values are stripped, non-text values are serialized
with `json.dumps`; and every record a successful
`query_gemini_for_word` returns is such a normalized record. -/
theorem c5_record_invariants :
    (∀ parsed : List (String × JsonValue),
      (normalizeRecord parsed).map Prod.fst = geminiKeys) ∧
    (∀ (parsed : List (String × JsonValue)) (k : String), k ∈ geminiKeys →
      lookupKV parsed k = none →
      lookupKV (normalizeRecord parsed) k = some "") ∧
    (∀ (parsed : List (String × JsonValue)) (k s : String), k ∈ geminiKeys →
      lookupKV parsed k = some (.str s) →
      lookupKV (normalizeRecord parsed) k = some (pyStrip s)) ∧
    (∀ (parsed : List (String × JsonValue)) (k : String) (v : JsonValue),
      k ∈ geminiKeys → lookupKV parsed k = some v → isStr v = false →
      lookupKV (normalizeRecord parsed) k = some (dumps v)) ∧
    (∀ (loads : String → Option JsonValue) (resp : Nat → Except String String)
      (retries : Nat) (backoff : ℚ) (r : List (String × String)),
      (query_gemini_for_word loads resp retries backoff).result = .ok r →
      ∃ kvs, r = normalizeRecord kvs) := by
  refine ⟨?_, ?_, ?_, ?_, ?_⟩
  · intro parsed
    exact map_fst_map_keys _ geminiKeys
  · intro parsed k hk hnone
    rw [normalizeRecord, lookupKV_map_keys _ k geminiKeys hk, hnone]
    rfl
  · intro parsed k s hk hstr
    rw [normalizeRecord, lookupKV_map_keys _ k geminiKeys hk, hstr]
    rfl
  · intro parsed k v hk hv hnstr
    rw [normalizeRecord, lookupKV_map_keys _ k geminiKeys hk, hv]
    cases v with
    | str s => simp [isStr] at hnstr
    | null => rfl
    | bool b => rfl
    | num n => rfl
    | arr items => rfl
    | obj kvs => rfl
  · intro loads resp retries backoff r hr
    obtain ⟨n, hn⟩ :=
      geminiLoop_ok_body (fun n => geminiAttempt loads (resp n)) backoff
        (retries + 1) 0 none r hr
    cases hresp : resp n with
    | error e => rw [hresp] at hn; exact absurd hn (by simp [geminiAttempt])
    | ok raw =>
      rw [hresp] at hn
      cases hfind : find_json_in_text loads raw with
      | error e =>
        rw [geminiAttempt, hfind] at hn
        exact absurd hn (by simp)
      | ok val =>
        cases val with
        | obj kvs =>
          refine ⟨kvs, ?_⟩
          rw [geminiAttempt, hfind] at hn
          exact (Except.ok.injEq _ _ ▸ hn).symm
        | null => rw [geminiAttempt, hfind] at hn; exact absurd hn (by simp)
        | bool b => rw [geminiAttempt, hfind] at hn; exact absurd hn (by simp)
        | num m => rw [geminiAttempt, hfind] at hn; exact absurd hn (by simp)
        | str s => rw [geminiAttempt, hfind] at hn; exact absurd hn (by simp)
        | arr items => rw [geminiAttempt, hfind] at hn; exact absurd hn (by simp)

/-- Claim C5 witness: on a parsed response with a padded string field, a
non-text field, and `phrase_translation` (among others) missing, the
normalized record maps the missing key to the empty string, strips the
string, and serializes the non-text value. -/
theorem c5_witness :
    lookupKV (normalizeRecord parsedDemo) "phrase_translation" = some "" ∧
    lookupKV (normalizeRecord parsedDemo) "meaning" = some (pyStrip " A hug. ") ∧
    lookupKV (normalizeRecord parsedDemo) "translation" =
      some (dumps (.arr [.str "x", .num 2])) :=
  ⟨c5_record_invariants.2.1 parsedDemo "phrase_translation" (by simp [geminiKeys]) rfl,
   c5_record_invariants.2.2.1 parsedDemo "meaning" " A hug. " (by simp [geminiKeys]) rfl,
   c5_record_invariants.2.2.2.1 parsedDemo "translation" (.arr [.str "x", .num 2])
     (by simp [geminiKeys]) rfl rfl⟩

/-- Claim C8: `note_exists` returns `true` iff the `findNotes` query
returned at least one identifier; a transport/HTTP/decode error makes it
return `false`, and a response without a usable `result` list also
yields `false`.  It is a total `Bool`-valued function, so it never
propagates an exception to its caller. -/
theorem c8_note_exists_spec (call : Except String JsonValue) :
    (∀ e, call = .error e → note_exists call = false) ∧
    (∀ kvs, call = .ok (.obj kvs) →
      ∀ l, lookupKV kvs "result" = some (.arr l) →
        (note_exists call = true ↔ l ≠ [])) ∧
    (∀ kvs, call = .ok (.obj kvs) → lookupKV kvs "result" = none →
      note_exists call = false) := by
  refine ⟨?_, ?_, ?_⟩
  · intro e he
    rw [he]
    rfl
  · intro kvs hcall l hres
    rw [hcall]
    simp [note_exists, hres, pyLen, decide_eq_true_eq, List.length_pos]
  · intro kvs hcall hres
    rw [hcall]
    simp [note_exists, hres, pyLen]

/-- Claim C8 witness: a well-formed `findNotes` response with one note
id makes `note_exists` return `true`. -/
theorem c8_witness :
    note_exists (.ok (.obj [("result", .arr [.num 5])])) = true ↔
      ([JsonValue.num 5] ≠ []) :=
  (c8_note_exists_spec (.ok (.obj [("result", .arr [.num 5])]))).2.1 _ rfl _ rfl

/-- Claim C10: when the whole stripped input parses as JSON but is not
an object (a bare number, string, array, ...), `find_json_in_text`
returns that non-object value instead of failing. -/
theorem c10_nonobject_passthrough (loads : String → Option JsonValue)
    (text : String) (v : JsonValue) (hv : loads (pyStrip text) = some v)
    (hobj : isObj v = false) :
    find_json_in_text loads text = .ok v := by
  have _hv2 := hobj
  simp only [find_json_in_text]
  rw [hv]

/-- Claim C10 witness: the bare number `5` is returned as-is. -/
theorem c10_witness : find_json_in_text loadsNum "5" = .ok (.num 5) :=
  c10_nonobject_passthrough loadsNum "5" (.num 5) rfl rfl

/-- One row's contribution in preview mode: no insertion call, and the
same read-side calls as in normal mode. -/
theorem processRow_dry_filter (noteEx : String → Bool)
    (gen : String → Except String (List (String × String)))
    (add : String → List (String × String) → Except String Int)
    (row : List String) :
    ((processRow noteEx gen add true row).1.filter isAddCall = []) ∧
    ((processRow noteEx gen add true row).1.filter isReadCall =
      (processRow noteEx gen add false row).1.filter isReadCall) := by
  cases row with
  | nil => simp [processRow]
  | cons cell rest =>
    by_cases h1 : pyStrip cell = ""
    · simp [processRow, h1]
    · by_cases h2 : noteEx (pyStrip cell)
      · simp [processRow, h1, h2, isAddCall, isReadCall]
      · cases hg : gen (pyStrip cell) with
        | error e => simp [processRow, h1, h2, hg, isAddCall, isReadCall]
        | ok g =>
          cases ha : add (pyStrip cell) (ankiFields (pyStrip cell) g) with
          | ok id => simp [processRow, h1, h2, hg, ha, isAddCall, isReadCall]
          | error e => simp [processRow, h1, h2, hg, ha, isAddCall, isReadCall]

/-- Claim C9: with preview mode on, the pipeline issues no `addNote`
call for any word, while the existence checks and generation calls are
exactly those of normal mode. -/
theorem c9_preview_mode (noteEx : String → Bool)
    (gen : String → Except String (List (String × String)))
    (add : String → List (String × String) → Except String Int)
    (rows : List (List String)) :
    ((process_csv_file noteEx gen add true rows).1.filter isAddCall = []) ∧
    ((process_csv_file noteEx gen add true rows).1.filter isReadCall =
      (process_csv_file noteEx gen add false rows).1.filter isReadCall) := by
  induction rows with
  | nil => simp [process_csv_file]
  | cons row rows ih =>
    obtain ⟨hrow1, hrow2⟩ := processRow_dry_filter noteEx gen add row
    simp only [process_csv_file, List.filter_append]
    exact ⟨by rw [hrow1, ih.1]; rfl, by rw [hrow2, ih.2]⟩

/-- Claim C6: when `note_exists` answers `true` for a word, the driver
makes no generation call and no insertion call for it, the row ends in
the `Skipped` state, and processing continues with the remaining rows. -/
theorem c6_duplicate_skip (noteEx : String → Bool)
    (gen : String → Except String (List (String × String)))
    (add : String → List (String × String) → Except String Int)
    (dry_run : Bool) (cell : String) (rest : List String)
    (rows : List (List String))
    (hw : pyStrip cell ≠ "") (hex : noteEx (pyStrip cell) = true) :
    processRow noteEx gen add dry_run (cell :: rest) =
      ([.existsCheck (pyStrip cell) true], .skipped) ∧
    process_csv_file noteEx gen add dry_run ((cell :: rest) :: rows) =
      (Event.existsCheck (pyStrip cell) true ::
          (process_csv_file noteEx gen add dry_run rows).1,
        Outcome.skipped :: (process_csv_file noteEx gen add dry_run rows).2) := by
  have h1 : processRow noteEx gen add dry_run (cell :: rest) =
      ([.existsCheck (pyStrip cell) true], .skipped) := by
    simp [processRow, hw, hex]
  refine ⟨h1, ?_⟩
  simp [process_csv_file, h1]

/-- Claim C6 witness: a concrete duplicate word is skipped with no
generation or insertion event, and the following rows are untouched. -/
theorem c6_witness :
    processRow (fun _ => true) (fun _ => Except.error "gen")
      (fun _ _ => Except.error "add") false ["dup"] =
      ([.existsCheck (pyStrip "dup") true], .skipped) ∧
    process_csv_file (fun _ => true) (fun _ => Except.error "gen")
      (fun _ _ => Except.error "add") false [["dup"]] =
      (Event.existsCheck (pyStrip "dup") true ::
          (process_csv_file (fun _ => true) (fun _ => Except.error "gen")
            (fun _ _ => Except.error "add") false []).1,
        Outcome.skipped ::
          (process_csv_file (fun _ => true) (fun _ => Except.error "gen")
            (fun _ _ => Except.error "add") false []).2) :=
  c6_duplicate_skip (fun _ => true) (fun _ => Except.error "gen")
    (fun _ _ => Except.error "add") false "dup" [] [] (by decide) rfl

/-- Claim C2 counterexample: the claim says the fixed 1.0-second sleep
happens after each word regardless of outcome, but a word skipped as a
duplicate produces no sleep at all — the `continue` in the duplicate
branch bypasses the `time.sleep(1.0)` at the end of the loop body. -/
theorem c2_counterexample :
    (processRow (fun _ => true) (fun _ => Except.error "gen")
      (fun _ _ => Except.error "add") false ["echo"]).2 = Outcome.skipped ∧
    Event.sleep 1 ∉ (processRow (fun _ => true) (fun _ => Except.error "gen")
      (fun _ _ => Except.error "add") false ["echo"]).1 := by
  constructor
  · decide
  · decide

/-- Claim C2 (amended): the fixed 1.0-second sleep occurs after each
word whose outcome is `Added`, `Failed` or the preview log — as the last
action of the iteration — but not after a word skipped as a duplicate
(nor after a blank row), because the duplicate branch `continue`s past
the sleep. -/
theorem c2_sleep_after_word (noteEx : String → Bool)
    (gen : String → Except String (List (String × String)))
    (add : String → List (String × String) → Except String Int)
    (dry_run : Bool) (row : List String) :
    ((processRow noteEx gen add dry_run row).2 = Outcome.skipped →
      Event.sleep 1 ∉ (processRow noteEx gen add dry_run row).1) ∧
    ((processRow noteEx gen add dry_run row).2 ≠ Outcome.skipped →
      (processRow noteEx gen add dry_run row).2 ≠ Outcome.blank →
      (processRow noteEx gen add dry_run row).1.getLast? =
        some (Event.sleep 1)) := by
  cases row with
  | nil =>
    constructor
    · intro h
      simp [processRow]
    · intro h1 h2
      exfalso
      apply h2
      simp [processRow]
  | cons cell rest =>
    by_cases h1 : pyStrip cell = ""
    · constructor
      · intro h
        simp [processRow, h1]
      · intro hn1 hn2
        exfalso
        apply hn2
        simp [processRow, h1]
    · by_cases h2 : noteEx (pyStrip cell)
      · constructor
        · intro h
          simp [processRow, h1, h2]
        · intro hn1 hn2
          exfalso
          apply hn1
          simp [processRow, h1, h2]
      · cases hg : gen (pyStrip cell) with
        | error e =>
          constructor
          · intro h
            simp [processRow, h1, h2, hg] at h
          · intro _ _
            simp [processRow, h1, h2, hg, List.getLast?]
        | ok g =>
          cases dry_run with
          | true =>
            constructor
            · intro h
              simp [processRow, h1, h2, hg] at h
            · intro _ _
              simp [processRow, h1, h2, hg, List.getLast?]
          | false =>
            cases ha : add (pyStrip cell) (ankiFields (pyStrip cell) g) with
            | ok id =>
              constructor
              · intro h
                simp [processRow, h1, h2, hg, ha] at h
              · intro _ _
                simp [processRow, h1, h2, hg, ha, List.getLast?]
            | error e =>
              constructor
              · intro h
                simp [processRow, h1, h2, hg, ha] at h
              · intro _ _
                simp [processRow, h1, h2, hg, ha, List.getLast?]

/-- Claim C2 witness: a skipped word's trace has no sleep, while a
failed word's trace ends with the 1.0-second sleep. -/
theorem c2_witness :
    Event.sleep 1 ∉ (processRow (fun _ => true) (fun _ => Except.error "gen")
      (fun _ _ => Except.error "add") false ["alpha"]).1 ∧
    (processRow (fun _ => false) (fun _ => Except.error "gen")
      (fun _ _ => Except.error "add") false ["alpha"]).1.getLast? =
      some (Event.sleep 1) :=
  ⟨(c2_sleep_after_word (fun _ => true) (fun _ => Except.error "gen")
      (fun _ _ => Except.error "add") false ["alpha"]).1 (by decide),
   (c2_sleep_after_word (fun _ => false) (fun _ => Except.error "gen")
      (fun _ _ => Except.error "add") false ["alpha"]).2 (by decide) (by decide)⟩

/-- The scanner returns exactly the first successfully parsed candidate
of the candidate sequence (each parse failure resets the scanner state,
so the remaining candidates are those of the reset scan). -/
theorem scanGo_eq_candGo (loads : String → Option JsonValue) (full : List Char) :
    ∀ (cs : List Char) (i : Nat) (start : Option Nat) (depth : Nat),
      scanGo loads full cs i start depth =
        (candGo full cs i start depth).findSome? (fun c => loads (String.mk c))
  | [], _, _, _ => rfl
  | ch :: rest, i, start, depth => by
    simp only [scanGo, candGo]
    by_cases hl : ch = lbrace
    · rw [if_pos hl, if_pos hl]
      exact scanGo_eq_candGo loads full rest (i + 1) (some (start.getD i)) (depth + 1)
    · rw [if_neg hl, if_neg hl]
      by_cases hr : ch = rbrace
      · rw [if_pos hr, if_pos hr]
        cases start with
        | none => exact scanGo_eq_candGo loads full rest (i + 1) none (stepDepth depth)
        | some s =>
          simp only []
          by_cases hd : stepDepth depth = 0
          · rw [if_pos hd, if_pos hd, List.findSome?_cons]
            have hrec := scanGo_eq_candGo loads full rest (i + 1) none 0
            cases hload : loads (String.mk ((full.drop s).take (i + 1 - s))) with
            | some v => simp [hload]
            | none => simp [hload, hrec]
          · rw [if_neg hd, if_neg hd]
            exact scanGo_eq_candGo loads full rest (i + 1) (some s) (stepDepth depth)
      · rw [if_neg hr, if_neg hr]
        exact scanGo_eq_candGo loads full rest (i + 1) start depth

/-- Scanning a prefix without opening braces from the initial state
leaves the scanner in the initial state. -/
theorem scanGo_skip (loads : String → Option JsonValue) (full : List Char) :
    ∀ (pre rest : List Char) (i : Nat), (∀ c ∈ pre, c ≠ lbrace) →
      scanGo loads full (pre ++ rest) i none 0 =
        scanGo loads full rest (i + pre.length) none 0
  | [], rest, i, _ => by simp
  | c :: pre, rest, i, h => by
    have hc : c ≠ lbrace := h c (List.mem_cons_self c pre)
    have htail : ∀ x ∈ pre, x ≠ lbrace := fun x hx => h x (List.mem_cons_of_mem c hx)
    have ih := scanGo_skip loads full pre rest (i + 1) htail
    simp only [List.cons_append, scanGo, List.append_eq]
    rw [if_neg hc]
    by_cases hr : c = rbrace
    · rw [if_pos hr, show stepDepth 0 = 0 from rfl, ih,
        show i + 1 + pre.length = i + (c :: pre).length from by
          simp only [List.length_cons]; omega]
    · rw [if_neg hr, ih,
        show i + 1 + pre.length = i + (c :: pre).length from by
          simp only [List.length_cons]; omega]

/-- Running the scanner through a balanced span (opening brace already
consumed, `start` recorded, depth positive) submits exactly the span as
a candidate: it returns the parse on success and resumes scanning after
the span, in the reset state, on failure. -/
theorem scanGo_span (loads : String → Option JsonValue) (full : List Char) :
    ∀ (s : List Char) (d : Nat), 1 ≤ d → spanCheck s d = true →
    ∀ (rest : List Char) (i st : Nat),
      scanGo loads full (s ++ rest) i (some st) d =
        (match loads (String.mk ((full.drop st).take (i + s.length - st))) with
          | some v => some v
          | none => scanGo loads full rest (i + s.length) none 0)
  | [], d, _, hspan => by simp [spanCheck] at hspan
  | c :: s', d, hd, hspan => by
    intro rest i st
    simp only [List.cons_append, scanGo, List.append_eq]
    by_cases hl : c = lbrace
    · rw [if_pos hl]
      have hspan' : spanCheck s' (d + 1) = true := by
        simpa [spanCheck, hl] using hspan
      have ih := scanGo_span loads full s' (d + 1) (by omega) hspan' rest (i + 1) st
      rw [Option.getD_some, ih,
        show i + 1 + s'.length - st = i + (c :: s').length - st from by
          simp only [List.length_cons]; omega,
        show i + 1 + s'.length = i + (c :: s').length from by
          simp only [List.length_cons]; omega]
    · rw [if_neg hl]
      by_cases hrb : c = rbrace
      · rw [if_pos hrb]
        by_cases hd1 : d = 1
        · have hs' : s' = [] := by
            subst hd1
            simpa [spanCheck, hl, hrb, List.isEmpty_iff] using hspan
          subst hs'
          subst hd1
          rw [if_pos (show stepDepth 1 = 0 from rfl)]
          simp
        · have hspan' : spanCheck s' (d - 1) = true := by
            simpa [spanCheck, hl, hrb, hd1] using hspan
          have hsd : stepDepth d = d - 1 := by
            rw [stepDepth, if_pos (by omega : 0 < d)]
          have hne : ¬ stepDepth d = 0 := by rw [hsd]; omega
          rw [if_neg hne, hsd]
          have ih := scanGo_span loads full s' (d - 1) (by omega) hspan' rest (i + 1) st
          rw [ih,
            show i + 1 + s'.length - st = i + (c :: s').length - st from by
              simp only [List.length_cons]; omega,
            show i + 1 + s'.length = i + (c :: s').length from by
              simp only [List.length_cons]; omega]
      · rw [if_neg hrb]
        have hspan' : spanCheck s' d = true := by
          simpa [spanCheck, hl, hrb] using hspan
        have ih := scanGo_span loads full s' d hd hspan' rest (i + 1) st
        rw [ih,
          show i + 1 + s'.length - st = i + (c :: s').length - st from by
            simp only [List.length_cons]; omega,
          show i + 1 + s'.length = i + (c :: s').length from by
            simp only [List.length_cons]; omega]

/-- Claim C4: the balanced-span scanner of `find_json_in_text` submits
each depth-zero-closing substring as a candidate, returns the first one
that parses, and resets its `start`/`depth` tracking on a candidate's
parse failure (first conjunct: the scan equals the first parse success
over the reset-generated candidate sequence); consequently, for input
whose stripped form is commentary without opening braces, followed by
one balanced span that parses, followed by anything, with the whole
stripped text not parsing directly, the extractor returns that span's
parsed content (second conjunct). -/
theorem c4_extractor_tolerance :
    (∀ (loads : String → Option JsonValue) (t : List Char),
      scanGo loads t t 0 none 0 =
        (candGo t t 0 none 0).findSome? (fun c => loads (String.mk c))) ∧
    (∀ (loads : String → Option JsonValue) (text : String)
      (pre span post : List Char) (v : JsonValue),
      (pyStrip text).toList = pre ++ (span ++ post) →
      (∀ c ∈ pre, c ≠ lbrace) →
      MinBalancedSpan span = true →
      loads (String.mk span) = some v →
      loads (pyStrip text) = none →
      find_json_in_text loads text = .ok v) := by
  constructor
  · intro loads t
    exact scanGo_eq_candGo loads t t 0 none 0
  · intro loads text pre span post v hsplit hpre hspan hload hnone
    simp only [find_json_in_text]
    rw [hnone]
    suffices hscan : scanGo loads (pyStrip text).toList (pyStrip text).toList 0 none 0
        = some v by rw [hscan]
    obtain ⟨c, s, rfl⟩ : ∃ c s, span = c :: s := by
      cases span with
      | nil => simp [MinBalancedSpan] at hspan
      | cons c s => exact ⟨c, s, rfl⟩
    have hc : c = lbrace := by
      by_cases hcl : c = lbrace
      · exact hcl
      · simp [MinBalancedSpan, hcl] at hspan
    subst hc
    have hsc : spanCheck s 1 = true := by
      simpa [MinBalancedSpan] using hspan
    rw [hsplit]
    rw [scanGo_skip loads _ pre ((lbrace :: s) ++ post) 0 hpre, Nat.zero_add]
    simp only [List.cons_append, scanGo, List.append_eq]
    simp only [if_true, Option.getD_none, Nat.zero_add]
    rw [scanGo_span loads _ s 1 le_rfl hsc post (pre.length + 1) pre.length]
    have hdrop : (pre ++ (lbrace :: (s ++ post))).drop pre.length =
        lbrace :: (s ++ post) :=
      List.drop_left pre _
    have harith : pre.length + 1 + s.length - pre.length = (lbrace :: s).length := by
      simp only [List.length_cons]
      omega
    rw [hdrop, harith]
    have htake : ((lbrace :: s) ++ post).take (lbrace :: s).length = lbrace :: s :=
      List.take_left _ _
    rw [show lbrace :: (s ++ post) = (lbrace :: s) ++ post from rfl, htake]
    rw [hload]

/-- Claim C4 witness: commentary around one balanced object span — the
extractor returns the span's parsed content. -/
theorem c4_witness :
    find_json_in_text loadsDemo "noise \x7b\"a\": 1\x7d tail" =
      .ok (.obj [("a", .num 1)]) :=
  c4_extractor_tolerance.2 loadsDemo "noise \x7b\"a\": 1\x7d tail"
    "noise ".toList "\x7b\"a\": 1\x7d".toList " tail".toList (.obj [("a", .num 1)])
    (by decide) (by decide) (by decide) rfl rfl

/-- Claim C7 (amended): when the stripped input is not valid JSON, no
candidate of the balanced-span scan parses, and no non-nested fallback
match parses, `find_json_in_text` fails with the `ValueError`
(`ParseError`) whose message carries the stripped input text. -/
theorem c7_parse_error (loads : String → Option JsonValue) (text : String)
    (h1 : loads (pyStrip text) = none)
    (h2 : ∀ c ∈ candGo (pyStrip text).toList (pyStrip text).toList 0 none 0,
      loads (String.mk c) = none)
    (h3 : ∀ m ∈ findNonNested (pyStrip text).toList, loads (String.mk m) = none) :
    find_json_in_text loads text = .error (jsonErrorHeader ++ pyStrip text) := by
  simp only [find_json_in_text]
  rw [h1]
  rw [scanGo_eq_candGo loads (pyStrip text).toList (pyStrip text).toList 0 none 0]
  rw [findSome?_eq_none_of _ _ h2]
  rw [findSome?_eq_none_of _ _ h3]

/-- Claim C7 witness: text with no parseable content at all makes the
extractor fail with the `ValueError` message. -/
theorem c7_witness :
    find_json_in_text loadsNone "no json here" =
      .error (jsonErrorHeader ++ pyStrip "no json here") :=
  c7_parse_error loadsNone "no json here" rfl (fun _ _ => rfl) (fun _ _ => rfl)

set_option maxRecDepth 8000 in
/-- Claim C7 counterexample: the claim says the `ParseError` carries the
full original text, but for the input `" x "` (which strips to `"x"`)
the raised message carries only the stripped text — the original
three-character input does not occur in the message at all, because the
source appends the re-assigned (stripped) `text` variable. -/
theorem c7_counterexample :
    find_json_in_text loadsNone " x " = .error (jsonErrorHeader ++ "x") ∧
    ¬ (" x ".toList <:+: (jsonErrorHeader ++ "x").toList) := by
  constructor
  · rfl
  · decide

end LearnEnglish
